import Mathlib

/-!
Shallow embedding of the feature-tracking orchestration engine of the
`ar-slam-system` repository (`FeatureTracker::track_features`,
`FeatureTracker::reset` in `src/core/feature_tracker.cpp`, together with the
`TrackingResult` record and `Frame::extract_features` as an external detector
capability).

Pixel positions and residual errors are modelled as rationals; the external
vision capabilities (ORB detection, pyramidal Lucas-Kanade optical flow,
RANSAC fundamental-matrix estimation) are modelled as an oracle environment
`Env`, with their index-alignment contracts collected in `EnvOk`.
-/

namespace ARSlam

set_option maxRecDepth 16384

/-- A 2D pixel position (`cv::Point2f`), with coordinates as rationals. -/
structure Point where
  x : ℚ
  y : ℚ
deriving DecidableEq, Repr

instance : Inhabited Point := ⟨⟨0, 0⟩⟩

/-- Default point used for out-of-range list reads (never hit under the
index-alignment contracts). -/
def pOrigin : Point := ⟨0, 0⟩

/-- The per-index survivor condition of the flow loop in
`FeatureTracker::track_features`: flow status flag set, residual error below
`30.0f`, and the candidate position inside the current image
(`pt.x >= 0 && pt.x < cols && pt.y >= 0 && pt.y < rows`). -/
def keepPoint (cols rows : ℚ) (st : Bool) (e : ℚ) (pt : Point) : Bool :=
  st && decide (e < 30) &&
    (decide (0 ≤ pt.x) && decide (pt.x < cols) && decide (0 ≤ pt.y) && decide (pt.y < rows))

/-- The survivor-collection loop body, iterated over a list of indices in
order.  Mirrors the `for (size_t i = 0; i < status.size(); ++i)` loop: a kept
index pushes `prev_points_[i]` and `curr_points[i]`, and pushes
`track_ids_[i]` only under the guard `i < track_ids_.size()`. -/
def survAux (prevPts currPts : List Point) (status : List Bool) (err : List ℚ)
    (ids : List Int) (cols rows : ℚ) : List Nat → List Point × List Point × List Int
  | [] => ([], [], [])
  | i :: rest =>
    let r := survAux prevPts currPts status err ids cols rows rest
    if keepPoint cols rows (status.getD i false) (err.getD i 0) (currPts.getD i pOrigin) then
      (prevPts.getD i pOrigin :: r.1,
       currPts.getD i pOrigin :: r.2.1,
       if i < ids.length then ids.getD i 0 :: r.2.2 else r.2.2)
    else r

/-- The survivor set built from the optical-flow outputs: the loop runs for
`i = 0 .. status.size() - 1`. -/
def buildSurvivors (prevPts currPts : List Point) (status : List Bool) (err : List ℚ)
    (ids : List Int) (cols rows : ℚ) : List Point × List Point × List Int :=
  survAux prevPts currPts status err ids cols rows (List.range status.length)

/-- The RANSAC mask-application loop body, iterated over a list of indices in
order.  Mirrors `for (size_t i = 0; i < mask.size(); ++i) if (mask[i]) ...`,
which pushes `good_prev_points[i]`, `good_curr_points[i]` and
`good_track_ids[i]` unconditionally together. -/
def maskAux (mask : List Bool) (a b : List Point) (ids : List Int) :
    List Nat → List Point × List Point × List Int
  | [] => ([], [], [])
  | i :: rest =>
    let r := maskAux mask a b ids rest
    if mask.getD i false then
      (a.getD i pOrigin :: r.1, b.getD i pOrigin :: r.2.1, ids.getD i 0 :: r.2.2)
    else r

/-- Apply the RANSAC inlier mask over the survivor triples. -/
def applyMask (mask : List Bool) (a b : List Point) (ids : List Int) :
    List Point × List Point × List Int :=
  maskAux mask a b ids (List.range mask.length)

/-- The external vision capabilities consumed during one engine step, fixed
for the (previous image, current image) pair of that step:
`detect n` is `Frame::extract_features(n)` on the current image (the list of
extracted feature pixel positions); `detectMasked n allowed` is the
augmentation-path `cv::ORB::create(n)->detect(image, keypoints, mask)` where
`allowed` is the exclusion mask the engine built; `flowPts / flowStatus /
flowErr` are the three outputs of `cv::calcOpticalFlowPyrLK`; `fund a b` is
the inlier mask of `cv::findFundamentalMat(a, b, FM_RANSAC, 3.0, 0.99, mask)`;
`cols`/`rows` are the current image dimensions. -/
structure Env where
  detect : Nat → List Point
  detectMasked : Nat → (Point → Bool) → List Point
  flowPts : List Point → List Point
  flowStatus : List Point → List Bool
  flowErr : List Point → List ℚ
  fund : List Point → List Point → List Bool
  cols : ℚ
  rows : ℚ

/-- The persistent state of a `FeatureTracker`: whether `prev_frame_` is set,
the previous positions `prev_points_`, the parallel identities `track_ids_`,
and the counter `next_track_id_`. -/
structure TrackerState where
  hasPrevFrame : Bool
  prev_points : List Point
  track_ids : List Int
  next_track_id : Int
deriving DecidableEq, Repr

/-- The `TrackingResult` record returned by `track_features`. -/
structure TrackingResult where
  prev_points : List Point
  curr_points : List Point
  track_ids : List Int
  inliers : List Bool
  num_tracked : Nat
  num_inliers : Nat
  tracking_quality : ℚ
deriving DecidableEq, Repr

/-- The identities issued by `n` successive `next_track_id_++` allocations
starting at `start`. -/
def allocIds (start : Int) (n : Nat) : List Int :=
  (List.range n).map fun (i : Nat) => start + (i : Int)

/-- The tracker state at construction: no previous frame, empty table,
counter `0`. -/
def initialState : TrackerState :=
  { hasPrevFrame := false, prev_points := [], track_ids := [], next_track_id := 0 }

/-- `FeatureTracker::reset`: clears the previous frame, the Track Table,
and sets `next_track_id_ = 0`. -/
def reset (_s : TrackerState) : TrackerState := initialState

/-- The first-frame branch of `track_features` (`!prev_frame_`): extract
features with the default budget 1000, every feature pixel becomes a track
position with a fresh identity; quality 1.  The result's `prev_points`,
`inliers` and `num_inliers` keep their defaults (empty / 0). -/
def bootstrapStep (env : Env) (s : TrackerState) : TrackingResult × TrackerState :=
  let pts := env.detect 1000
  let ids := allocIds s.next_track_id pts.length
  ({ prev_points := [], curr_points := pts, track_ids := ids, inliers := [],
     num_tracked := pts.length, num_inliers := 0, tracking_quality := 1 },
   { hasPrevFrame := true, prev_points := pts, track_ids := ids,
     next_track_id := s.next_track_id + pts.length })

/-- The flow survivors of a steady step: `good_prev_points`,
`good_curr_points`, `good_track_ids` just after the collection loop. -/
def flowSurvivors (env : Env) (s : TrackerState) : List Point × List Point × List Int :=
  buildSurvivors s.prev_points (env.flowPts s.prev_points) (env.flowStatus s.prev_points)
    (env.flowErr s.prev_points) s.track_ids env.cols env.rows

/-- The survivors after the RANSAC block: the fundamental-matrix filter runs
only when `good_curr_points.size() >= 8`, and its output replaces the
survivors only under the sanity guard
`ransac_curr_points.size() > good_curr_points.size() * 0.5`. -/
def filteredSurvivors (env : Env) (s : TrackerState) : List Point × List Point × List Int :=
  let g := flowSurvivors env s
  if 8 ≤ g.2.1.length then
    let r := applyMask (env.fund g.1 g.2.1) g.1 g.2.1 g.2.2
    if g.2.1.length < 2 * r.2.1.length then r else g
  else g

/-- The tracking quality of a steady step:
`prev_points_.empty() ? 0.0f : good_curr_points.size() / prev_points_.size()`,
computed after the RANSAC block. -/
def stepQuality (env : Env) (s : TrackerState) : ℚ :=
  if s.prev_points = [] then 0
  else ((filteredSurvivors env s).2.1.length : ℚ) / (s.prev_points.length : ℚ)

/-- The re-detection branch of a steady step
(`quality < MIN_QUALITY || good_curr_points.size() < MIN_FEATURES`):
re-extract with the default budget, reset the table to the fresh detections
with fresh identities, and report quality `1.0` with all-true inliers. -/
def reinitStep (env : Env) (s : TrackerState) : TrackingResult × TrackerState :=
  let pts := env.detect 1000
  let ids := allocIds s.next_track_id pts.length
  ({ prev_points := [], curr_points := pts, track_ids := ids,
     inliers := List.replicate pts.length true,
     num_tracked := pts.length, num_inliers := pts.length, tracking_quality := 1 },
   { hasPrevFrame := true, prev_points := pts, track_ids := ids,
     next_track_id := s.next_track_id + pts.length })

/-- The exclusion mask the augmentation pass builds: a point is allowed iff it
avoids every radius-20 disc `cv::circle(mask, cv::Point(pt.x, pt.y), 20, 0, -1)`
around a tracked position (the float position is converted to an integer
pixel centre; tracked positions are in-bounds hence nonnegative, where that
conversion is the floor). -/
def maskAllows (tracked : List Point) (p : Point) : Bool :=
  tracked.all fun q =>
    decide ((400 : ℚ) < (p.x - ((⌊q.x⌋ : ℤ) : ℚ)) ^ 2 + (p.y - ((⌊q.y⌋ : ℤ) : ℚ)) ^ 2)

/-- The augmentation append loop: each new keypoint is appended with a fresh
identity, and the loop breaks once the total reaches `TARGET_FEATURES = 500`
(the break is tested after the push). -/
def appendAug : List Point → List Int → Int → List Point → List Point × List Int × Int
  | pts, ids, nid, [] => (pts, ids, nid)
  | pts, ids, nid, kp :: rest =>
    let pts' := pts ++ [kp]
    let ids' := ids ++ [nid]
    if 500 ≤ pts'.length then (pts', ids', nid + 1)
    else appendAug pts' ids' (nid + 1) rest

/-- The continuation branch of a steady step: the filtered survivors become
the result (all-true inliers, quality from `stepQuality`); if fewer than
`TARGET_FEATURES = 500` survive, additional features are detected under the
exclusion mask with budget `500 - |survivors|` and appended with fresh
identities (`num_inliers` and `inliers` are not updated by augmentation);
the state is updated from the result. -/
def continueStep (env : Env) (s : TrackerState) : TrackingResult × TrackerState :=
  let f := filteredSurvivors env s
  let q := stepQuality env s
  let base : TrackingResult :=
    { prev_points := f.1, curr_points := f.2.1, track_ids := f.2.2,
      inliers := List.replicate f.2.1.length true,
      num_tracked := f.2.1.length, num_inliers := f.2.1.length, tracking_quality := q }
  if f.2.1.length < 500 then
    let kps := env.detectMasked (500 - f.2.1.length) (maskAllows f.2.1)
    let a := appendAug f.2.1 f.2.2 s.next_track_id kps
    ({ base with curr_points := a.1, track_ids := a.2.1, num_tracked := a.1.length },
     { hasPrevFrame := true, prev_points := a.1, track_ids := a.2.1,
       next_track_id := a.2.2 })
  else
    (base,
     { hasPrevFrame := true, prev_points := f.2.1, track_ids := f.2.2,
       next_track_id := s.next_track_id })

/-- `FeatureTracker::track_features`: the first-frame branch bootstraps; a
steady step with an empty previous point set clears `prev_frame_` and calls
itself recursively; otherwise the policy picks re-detection or continuation
from the quality and the survivor count. -/
def track_features (env : Env) (s : TrackerState) : TrackingResult × TrackerState :=
  if s.hasPrevFrame = false then
    bootstrapStep env s
  else if s.prev_points = [] then
    track_features env { s with hasPrevFrame := false }
  else if stepQuality env s < 1 / 2 ∨ (filteredSurvivors env s).2.1.length < 100 then
    reinitStep env s
  else
    continueStep env s
termination_by (if s.hasPrevFrame then 1 else 0)
decreasing_by simp_all

/-- The index-alignment contracts of the external capabilities (§6 of the
design: flow outputs and the inlier mask are index-aligned with their inputs;
a detector returns at most its budget and honours the exclusion mask). -/
structure EnvOk (env : Env) : Prop where
  flowPts_len : ∀ ps, (env.flowPts ps).length = ps.length
  flowStatus_len : ∀ ps, (env.flowStatus ps).length = ps.length
  flowErr_len : ∀ ps, (env.flowErr ps).length = ps.length
  fund_len : ∀ a b, (env.fund a b).length = b.length
  detect_len : ∀ n, (env.detect n).length ≤ n
  detectMasked_len : ∀ n m, (env.detectMasked n m).length ≤ n
  detectMasked_mask : ∀ n m p, p ∈ env.detectMasked n m → m p = true

/-- Well-formedness of a tracker state, maintained by every step: positions
and identities are index-aligned, identities are pairwise distinct, and all
live identities are below the counter. -/
def StateWF (s : TrackerState) : Prop :=
  s.prev_points.length = s.track_ids.length ∧
  s.track_ids.Nodup ∧
  ∀ id ∈ s.track_ids, id < s.next_track_id

instance (s : TrackerState) : Decidable (StateWF s) := by
  unfold StateWF; infer_instance

/-! ### Basic facts about identity allocation -/

theorem length_allocIds (start : Int) (n : Nat) : (allocIds start n).length = n := by
  simp [allocIds]

theorem mem_allocIds {start : Int} {n : Nat} {a : Int} :
    a ∈ allocIds start n ↔ start ≤ a ∧ a < start + n := by
  simp only [allocIds, List.mem_map, List.mem_range]
  constructor
  · rintro ⟨i, hi, rfl⟩
    omega
  · rintro ⟨h1, h2⟩
    exact ⟨(a - start).toNat, by omega, by omega⟩

theorem nodup_allocIds (start : Int) (n : Nat) : (allocIds start n).Nodup := by
  refine List.Nodup.map ?_ (List.nodup_range n)
  intro a b h
  dsimp only at h
  omega

theorem allocIds_succ (start : Int) (n : Nat) :
    allocIds start (n + 1) = start :: allocIds (start + 1) n := by
  simp only [allocIds, List.range_succ_eq_map, List.map_cons, List.map_map, Nat.cast_zero,
    add_zero, List.cons.injEq, true_and]
  refine List.map_congr_left fun a _ => ?_
  simp only [Function.comp_apply]
  push_cast
  ring

/-! ### Branch equations for `track_features` -/

theorem track_features_bootstrap (env : Env) (s : TrackerState)
    (h : s.hasPrevFrame = false) :
    track_features env s = bootstrapStep env s := by
  rw [track_features]
  simp [h]

theorem track_features_empty (env : Env) (s : TrackerState)
    (h1 : s.hasPrevFrame = true) (h2 : s.prev_points = []) :
    track_features env s = bootstrapStep env { s with hasPrevFrame := false } := by
  rw [track_features]
  simp only [h1, h2, Bool.true_eq_false, if_false, if_true]
  rw [track_features]
  simp

theorem track_features_reinit (env : Env) (s : TrackerState)
    (h1 : s.hasPrevFrame = true) (h2 : s.prev_points ≠ [])
    (hc : stepQuality env s < 1 / 2 ∨ (filteredSurvivors env s).2.1.length < 100) :
    track_features env s = reinitStep env s := by
  rw [track_features, if_neg (by simp [h1]), if_neg h2, if_pos hc]

theorem track_features_continue (env : Env) (s : TrackerState)
    (h1 : s.hasPrevFrame = true) (h2 : s.prev_points ≠ [])
    (hc : ¬(stepQuality env s < 1 / 2 ∨ (filteredSurvivors env s).2.1.length < 100)) :
    track_features env s = continueStep env s := by
  rw [track_features, if_neg (by simp [h1]), if_neg h2, if_neg hc]

/-! ### Characterization of the survivor-collection loops as index selections -/

/-- `idx` is a strictly increasing list of indices below `n`. -/
def IsSelection (idx : List Nat) (n : Nat) : Prop :=
  idx.Pairwise (· < ·) ∧ ∀ i ∈ idx, i < n

theorem isSelection_filter_range (n : Nat) (p : Nat → Bool) :
    IsSelection ((List.range n).filter p) n := by
  constructor
  · exact (List.pairwise_lt_range n).filter p
  · intro i hi
    exact List.mem_range.mp (List.mem_of_mem_filter hi)

theorem getD_lt_getD_of_pairwise_lt {idx : List Nat} (hp : idx.Pairwise (· < ·))
    {a b : Nat} (ha : a < idx.length) (hb : b < idx.length) (hab : a < b) :
    idx.getD a 0 < idx.getD b 0 := by
  rw [List.getD_eq_getElem idx 0 ha, List.getD_eq_getElem idx 0 hb]
  exact List.pairwise_iff_getElem.mp hp a b ha hb hab

theorem isSelection_comp {idx jdx : List Nat} {n : Nat}
    (h1 : IsSelection idx n) (h2 : IsSelection jdx idx.length) :
    IsSelection (jdx.map fun j => idx.getD j 0) n := by
  obtain ⟨hp1, hb1⟩ := h1
  obtain ⟨hp2, hb2⟩ := h2
  constructor
  · rw [List.pairwise_map]
    refine hp2.imp_of_mem ?_
    intro a b ha hb hab
    exact getD_lt_getD_of_pairwise_lt hp1 (hb2 a ha) (hb2 b hb) hab
  · intro i hi
    rw [List.mem_map] at hi
    obtain ⟨j, hj, rfl⟩ := hi
    have hjl := hb2 j hj
    rw [List.getD_eq_getElem idx 0 hjl]
    exact hb1 _ (List.getElem_mem hjl)

theorem map_getD_comp {α : Type} (idx : List Nat) (f : Nat → α) (d : α) (jdx : List Nat)
    (hb : ∀ j ∈ jdx, j < idx.length) :
    jdx.map (fun j => (idx.map f).getD j d) = (jdx.map fun j => idx.getD j 0).map f := by
  rw [List.map_map]
  refine List.map_congr_left fun j hj => ?_
  have h := hb j hj
  rw [List.getD_eq_getElem (idx.map f) d (by simpa using h), List.getElem_map,
    Function.comp_apply, List.getD_eq_getElem idx 0 h]

theorem survAux_eq (prevPts currPts : List Point) (status : List Bool) (err : List ℚ)
    (ids : List Int) (cols rows : ℚ) (l : List Nat) :
    survAux prevPts currPts status err ids cols rows l =
      ((l.filter fun i =>
          keepPoint cols rows (status.getD i false) (err.getD i 0) (currPts.getD i pOrigin)).map
          (fun i => prevPts.getD i pOrigin),
       (l.filter fun i =>
          keepPoint cols rows (status.getD i false) (err.getD i 0) (currPts.getD i pOrigin)).map
          (fun i => currPts.getD i pOrigin),
       (l.filter fun i =>
          keepPoint cols rows (status.getD i false) (err.getD i 0) (currPts.getD i pOrigin) &&
            decide (i < ids.length)).map (fun i => ids.getD i 0)) := by
  induction l with
  | nil => simp [survAux]
  | cons i t ih =>
    simp only [survAux, ih, List.filter_cons]
    by_cases hk :
        keepPoint cols rows (status.getD i false) (err.getD i 0) (currPts.getD i pOrigin) = true
    · by_cases hi : i < ids.length
      · simp only [hk, hi, decide_eq_true hi, decide_True, Bool.and_true, Bool.true_and,
          Bool.and_self, eq_self_iff_true, if_true, List.map_cons]
      · simp only [hk, hi, decide_False, Bool.and_false, Bool.false_eq_true, eq_self_iff_true,
          if_true, if_false, List.map_cons]
    · rw [Bool.not_eq_true] at hk
      simp only [hk, Bool.false_and, Bool.false_eq_true, if_false]

theorem maskAux_eq (mask : List Bool) (a b : List Point) (ids : List Int) (l : List Nat) :
    maskAux mask a b ids l =
      ((l.filter fun i => mask.getD i false).map (fun i => a.getD i pOrigin),
       (l.filter fun i => mask.getD i false).map (fun i => b.getD i pOrigin),
       (l.filter fun i => mask.getD i false).map (fun i => ids.getD i 0)) := by
  induction l with
  | nil => simp [maskAux]
  | cons i t ih =>
    simp only [maskAux, ih, List.filter_cons]
    by_cases h : mask.getD i false = true
    · simp only [h, eq_self_iff_true, if_true, List.map_cons]
    · rw [Bool.not_eq_true] at h
      simp only [h, Bool.false_eq_true, if_false]

/-- With the index-alignment of identities (`status.length ≤ ids.length`), the
guard `i < track_ids_.size()` never fires and the survivor triple is the image
of one common index selection. -/
theorem buildSurvivors_eq (prevPts currPts : List Point) (status : List Bool) (err : List ℚ)
    (ids : List Int) (cols rows : ℚ) (hids : status.length ≤ ids.length) :
    buildSurvivors prevPts currPts status err ids cols rows =
      (((List.range status.length).filter fun i =>
          keepPoint cols rows (status.getD i false) (err.getD i 0) (currPts.getD i pOrigin)).map
          (fun i => prevPts.getD i pOrigin),
       ((List.range status.length).filter fun i =>
          keepPoint cols rows (status.getD i false) (err.getD i 0) (currPts.getD i pOrigin)).map
          (fun i => currPts.getD i pOrigin),
       ((List.range status.length).filter fun i =>
          keepPoint cols rows (status.getD i false) (err.getD i 0) (currPts.getD i pOrigin)).map
          (fun i => ids.getD i 0)) := by
  rw [buildSurvivors, survAux_eq]
  have : ((List.range status.length).filter fun i =>
      keepPoint cols rows (status.getD i false) (err.getD i 0) (currPts.getD i pOrigin) &&
        decide (i < ids.length)) =
      ((List.range status.length).filter fun i =>
        keepPoint cols rows (status.getD i false) (err.getD i 0) (currPts.getD i pOrigin)) := by
    refine List.filter_congr fun i hi => ?_
    have : i < status.length := List.mem_range.mp hi
    have hd : decide (i < ids.length) = true := decide_eq_true (by omega)
    rw [hd, Bool.and_true]
  rw [this]

/-! ### Branch equations for the RANSAC block -/

theorem filteredSurvivors_low (env : Env) (s : TrackerState)
    (h : (flowSurvivors env s).2.1.length < 8) :
    filteredSurvivors env s = flowSurvivors env s := by
  simp only [filteredSurvivors]
  rw [if_neg (by omega)]

theorem filteredSurvivors_guard_reject (env : Env) (s : TrackerState)
    (h8 : 8 ≤ (flowSurvivors env s).2.1.length)
    (hg : ¬((flowSurvivors env s).2.1.length <
        2 * (applyMask (env.fund (flowSurvivors env s).1 (flowSurvivors env s).2.1)
          (flowSurvivors env s).1 (flowSurvivors env s).2.1
          (flowSurvivors env s).2.2).2.1.length)) :
    filteredSurvivors env s = flowSurvivors env s := by
  simp only [filteredSurvivors]
  rw [if_pos h8, if_neg hg]

theorem filteredSurvivors_guard_accept (env : Env) (s : TrackerState)
    (h8 : 8 ≤ (flowSurvivors env s).2.1.length)
    (hg : (flowSurvivors env s).2.1.length <
        2 * (applyMask (env.fund (flowSurvivors env s).1 (flowSurvivors env s).2.1)
          (flowSurvivors env s).1 (flowSurvivors env s).2.1
          (flowSurvivors env s).2.2).2.1.length) :
    filteredSurvivors env s =
      applyMask (env.fund (flowSurvivors env s).1 (flowSurvivors env s).2.1)
        (flowSurvivors env s).1 (flowSurvivors env s).2.1 (flowSurvivors env s).2.2 := by
  simp only [filteredSurvivors]
  rw [if_pos h8, if_pos hg]

/-! ### The survivor sets are index selections of the previous Track Table -/

theorem flowSurvivors_sel (env : Env) (s : TrackerState) (hok : EnvOk env)
    (hal : s.prev_points.length = s.track_ids.length) :
    ∃ idx : List Nat, IsSelection idx s.prev_points.length ∧
      (flowSurvivors env s).1 = idx.map (fun i => s.prev_points.getD i pOrigin) ∧
      (flowSurvivors env s).2.1 =
        idx.map (fun i => (env.flowPts s.prev_points).getD i pOrigin) ∧
      (flowSurvivors env s).2.2 = idx.map (fun i => s.track_ids.getD i 0) := by
  have hst : (env.flowStatus s.prev_points).length = s.prev_points.length :=
    hok.flowStatus_len _
  have hb := buildSurvivors_eq s.prev_points (env.flowPts s.prev_points)
    (env.flowStatus s.prev_points) (env.flowErr s.prev_points) s.track_ids env.cols env.rows
    (by rw [hst, hal])
  refine ⟨(List.range (env.flowStatus s.prev_points).length).filter fun i =>
      keepPoint env.cols env.rows ((env.flowStatus s.prev_points).getD i false)
        ((env.flowErr s.prev_points).getD i 0) ((env.flowPts s.prev_points).getD i pOrigin),
    ?_, ?_, ?_, ?_⟩
  · obtain ⟨hp, hbnd⟩ := isSelection_filter_range (env.flowStatus s.prev_points).length fun i =>
      keepPoint env.cols env.rows ((env.flowStatus s.prev_points).getD i false)
        ((env.flowErr s.prev_points).getD i 0) ((env.flowPts s.prev_points).getD i pOrigin)
    exact ⟨hp, fun i hi => hst ▸ hbnd i hi⟩
  · rw [flowSurvivors, hb]
  · rw [flowSurvivors, hb]
  · rw [flowSurvivors, hb]

theorem filteredSurvivors_sel (env : Env) (s : TrackerState) (hok : EnvOk env)
    (hal : s.prev_points.length = s.track_ids.length) :
    ∃ idx : List Nat, IsSelection idx s.prev_points.length ∧
      (filteredSurvivors env s).1 = idx.map (fun i => s.prev_points.getD i pOrigin) ∧
      (filteredSurvivors env s).2.1 =
        idx.map (fun i => (env.flowPts s.prev_points).getD i pOrigin) ∧
      (filteredSurvivors env s).2.2 = idx.map (fun i => s.track_ids.getD i 0) := by
  obtain ⟨idx, hsel, h1, h2, h3⟩ := flowSurvivors_sel env s hok hal
  by_cases h8 : 8 ≤ (flowSurvivors env s).2.1.length
  · by_cases hguard : (flowSurvivors env s).2.1.length <
        2 * (applyMask (env.fund (flowSurvivors env s).1 (flowSurvivors env s).2.1)
          (flowSurvivors env s).1 (flowSurvivors env s).2.1
          (flowSurvivors env s).2.2).2.1.length
    · rw [filteredSurvivors_guard_accept env s h8 hguard]
      have hmlen : (env.fund (flowSurvivors env s).1 (flowSurvivors env s).2.1).length =
          idx.length := by
        rw [hok.fund_len, h2, List.length_map]
      generalize hmdef : env.fund (flowSurvivors env s).1 (flowSurvivors env s).2.1 = m
      rw [hmdef] at hmlen
      have hmeq := maskAux_eq m (flowSurvivors env s).1 (flowSurvivors env s).2.1
        (flowSurvivors env s).2.2 (List.range m.length)
      have hjsel : IsSelection
          ((List.range m.length).filter (fun i => m.getD i false)) idx.length := by
        obtain ⟨hp, hbnd⟩ := isSelection_filter_range m.length (fun i => m.getD i false)
        exact ⟨hp, fun i hi => hmlen ▸ hbnd i hi⟩
      refine ⟨_, isSelection_comp hsel hjsel, ?_, ?_, ?_⟩
      · rw [applyMask, hmeq, h1]
        exact map_getD_comp idx _ pOrigin _ hjsel.2
      · rw [applyMask, hmeq, h2]
        exact map_getD_comp idx _ pOrigin _ hjsel.2
      · rw [applyMask, hmeq, h3]
        exact map_getD_comp idx _ 0 _ hjsel.2
    · rw [filteredSurvivors_guard_reject env s h8 hguard]
      exact ⟨idx, hsel, h1, h2, h3⟩
  · rw [filteredSurvivors_low env s (by omega)]
    exact ⟨idx, hsel, h1, h2, h3⟩

theorem isSelection_map_nodup {α : Type} {idx : List Nat} {n : Nat} (h : IsSelection idx n)
    {l : List α} (d : α) (hl : l.Nodup) (hn : l.length = n) :
    (idx.map fun i => l.getD i d).Nodup := by
  have hp : (idx.map fun i => l.getD i d).Pairwise (· ≠ ·) := by
    rw [List.pairwise_map]
    refine List.Pairwise.imp_of_mem ?_ h.1
    intro a b ha hb hab heq
    have hal : a < l.length := by rw [hn]; exact h.2 a ha
    have hbl : b < l.length := by rw [hn]; exact h.2 b hb
    rw [List.getD_eq_getElem l d hal, List.getD_eq_getElem l d hbl] at heq
    exact absurd ((List.Nodup.getElem_inj_iff hl).mp heq) (by omega)
  exact hp

theorem isSelection_map_mem {α : Type} {idx : List Nat} {n : Nat} (h : IsSelection idx n)
    {l : List α} (d : α) (hn : l.length = n) {a : α}
    (ha : a ∈ idx.map fun i => l.getD i d) : a ∈ l := by
  rw [List.mem_map] at ha
  obtain ⟨i, hi, rfl⟩ := ha
  have hil : i < l.length := by rw [hn]; exact h.2 i hi
  rw [List.getD_eq_getElem l d hil]
  exact List.getElem_mem hil

/-! ### The augmentation append loop -/

theorem appendAug_eq (pts : List Point) (ids : List Int) (nid : Int) (kps : List Point)
    (h : pts.length < 500) :
    appendAug pts ids nid kps =
      (pts ++ kps.take (min kps.length (500 - pts.length)),
       ids ++ allocIds nid (min kps.length (500 - pts.length)),
       nid + ((min kps.length (500 - pts.length) : Nat) : Int)) := by
  induction kps generalizing pts ids nid with
  | nil => simp [appendAug, allocIds]
  | cons kp rest ih =>
    simp only [appendAug, List.length_append, List.length_cons, List.length_nil]
    by_cases hb : 500 ≤ pts.length + 1
    · rw [if_pos (by simpa using hb)]
      have hmin : min (rest.length + 1) (500 - pts.length) = 1 := by omega
      rw [hmin]
      have hr1 : List.range 1 = [0] := rfl
      simp [allocIds, hr1]
    · rw [if_neg (by simpa using hb)]
      rw [ih (pts ++ [kp]) (ids ++ [nid]) (nid + 1) (by simp; omega)]
      have hsplit : 500 - pts.length = (500 - (pts ++ [kp]).length) + 1 := by
        simp
        omega
      rw [hsplit]
      have hmin : min (rest.length + 1) ((500 - (pts ++ [kp]).length) + 1) =
          min rest.length (500 - (pts ++ [kp]).length) + 1 := Nat.succ_min_succ _ _
      rw [hmin, List.take_succ_cons, allocIds_succ]
      simp only [List.append_assoc, List.singleton_append, List.length_append,
        List.length_cons, List.length_nil, Prod.mk.injEq, eq_self_iff_true, true_and]
      push_cast
      ring

/-! ### Branch equations for the continuation step -/

/-- The augmentation budget `TARGET_FEATURES - good_curr_points.size()`. -/
def augBudget (env : Env) (s : TrackerState) : Nat :=
  500 - (filteredSurvivors env s).2.1.length

/-- The keypoints the masked augmentation detection returns. -/
def augKps (env : Env) (s : TrackerState) : List Point :=
  env.detectMasked (augBudget env s) (maskAllows (filteredSurvivors env s).2.1)

/-- The number of keypoints the augmentation loop actually appends. -/
def augCount (env : Env) (s : TrackerState) : Nat :=
  min (augKps env s).length (augBudget env s)

theorem continueStep_aug (env : Env) (s : TrackerState)
    (hlt : (filteredSurvivors env s).2.1.length < 500) :
    continueStep env s =
      ({ prev_points := (filteredSurvivors env s).1,
         curr_points := (filteredSurvivors env s).2.1 ++ (augKps env s).take (augCount env s),
         track_ids := (filteredSurvivors env s).2.2 ++
           allocIds s.next_track_id (augCount env s),
         inliers := List.replicate (filteredSurvivors env s).2.1.length true,
         num_tracked := (filteredSurvivors env s).2.1.length + augCount env s,
         num_inliers := (filteredSurvivors env s).2.1.length,
         tracking_quality := stepQuality env s },
       { hasPrevFrame := true,
         prev_points := (filteredSurvivors env s).2.1 ++ (augKps env s).take (augCount env s),
         track_ids := (filteredSurvivors env s).2.2 ++
           allocIds s.next_track_id (augCount env s),
         next_track_id := s.next_track_id + ((augCount env s : Nat) : Int) }) := by
  simp only [continueStep]
  rw [if_pos hlt]
  rw [appendAug_eq _ _ _ _ hlt]
  have hlen : ((augKps env s).take (augCount env s)).length = augCount env s := by
    rw [List.length_take]
    unfold augCount
    omega
  simp only [augKps, augBudget, augCount, List.length_append, hlen, Prod.mk.injEq,
    TrackingResult.mk.injEq, TrackerState.mk.injEq]
  simp

theorem continueStep_noaug (env : Env) (s : TrackerState)
    (hge : ¬((filteredSurvivors env s).2.1.length < 500)) :
    continueStep env s =
      ({ prev_points := (filteredSurvivors env s).1,
         curr_points := (filteredSurvivors env s).2.1,
         track_ids := (filteredSurvivors env s).2.2,
         inliers := List.replicate (filteredSurvivors env s).2.1.length true,
         num_tracked := (filteredSurvivors env s).2.1.length,
         num_inliers := (filteredSurvivors env s).2.1.length,
         tracking_quality := stepQuality env s },
       { hasPrevFrame := true,
         prev_points := (filteredSurvivors env s).2.1,
         track_ids := (filteredSurvivors env s).2.2,
         next_track_id := s.next_track_id }) := by
  simp only [continueStep]
  rw [if_neg hge]

theorem filteredSurvivors_len (env : Env) (s : TrackerState) (hok : EnvOk env)
    (hal : s.prev_points.length = s.track_ids.length) :
    (filteredSurvivors env s).1.length = (filteredSurvivors env s).2.1.length ∧
    (filteredSurvivors env s).2.2.length = (filteredSurvivors env s).2.1.length := by
  obtain ⟨idx, _, h1, h2, h3⟩ := filteredSurvivors_sel env s hok hal
  rw [h1, h2, h3]
  simp

/-! ### Concrete oracle environments and states used as witnesses -/

/-- A small concrete environment: one detection, identity flow, no residuals,
all flow statuses valid, all RANSAC inliers, empty masked detection. -/
def envC : Env :=
  { detect := fun n => [⟨1, 2⟩].take n
  , detectMasked := fun _ _ => []
  , flowPts := fun ps => ps
  , flowStatus := fun ps => ps.map fun _ => true
  , flowErr := fun ps => ps.map fun _ => 0
  , fund := fun _ b => b.map fun _ => true
  , cols := 640, rows := 480 }

theorem envC_ok : EnvOk envC := by
  refine ⟨fun ps => rfl, fun ps => List.length_map _ _, fun ps => List.length_map _ _,
    fun a b => List.length_map _ _, fun n => ?_, fun n m => Nat.zero_le n, fun n m p h => ?_⟩
  · simp [envC]
  · simp [envC] at h

/-- An environment whose detector finds nothing at all. -/
def env0 : Env :=
  { detect := fun _ => []
  , detectMasked := fun _ _ => []
  , flowPts := fun ps => ps
  , flowStatus := fun ps => ps.map fun _ => true
  , flowErr := fun ps => ps.map fun _ => 0
  , fund := fun _ b => b.map fun _ => true
  , cols := 640, rows := 480 }

theorem env0_ok : EnvOk env0 := by
  refine ⟨fun ps => rfl, fun ps => List.length_map _ _, fun ps => List.length_map _ _,
    fun a b => List.length_map _ _, fun n => Nat.zero_le n, fun n m => Nat.zero_le n,
    fun n m p h => ?_⟩
  simp [env0] at h

/-- The probe point returned by the masked detector of `envB`. -/
def pNew : Point := ⟨600, 400⟩

/-- An environment for the continuation/augmentation branch: identity flow
over the survivors, and a masked detector that returns the probe point when
the budget allows it and the mask admits it. -/
def envB : Env :=
  { detect := fun n => [⟨1, 2⟩].take n
  , detectMasked := fun n m => if 0 < n ∧ m pNew then [pNew] else []
  , flowPts := fun ps => ps
  , flowStatus := fun ps => ps.map fun _ => true
  , flowErr := fun ps => ps.map fun _ => 0
  , fund := fun _ b => b.map fun _ => true
  , cols := 640, rows := 480 }

theorem envB_ok : EnvOk envB := by
  refine ⟨fun ps => rfl, fun ps => List.length_map _ _, fun ps => List.length_map _ _,
    fun a b => List.length_map _ _, fun n => ?_, fun n m => ?_, fun n m p h => ?_⟩
  · simp [envB]
  · by_cases hc : 0 < n ∧ m pNew = true
    · simp [envB, hc]
      omega
    · simp only [envB]
      rw [if_neg hc]
      simp
  · by_cases hc : 0 < n ∧ m pNew = true
    · simp only [envB] at h
      rw [if_pos hc] at h
      simp at h
      rw [h]
      exact hc.2
    · simp only [envB] at h
      rw [if_neg hc] at h
      simp at h

/-- A steady-state Track Table with 100 well-spread points and aligned
identities `0..99`. -/
def sB : TrackerState :=
  { hasPrevFrame := true
  , prev_points := (List.range 100).map fun (i : Nat) => ⟨(i : ℚ), 1⟩
  , track_ids := (List.range 100).map fun (i : Nat) => (i : Int)
  , next_track_id := 100 }

/-- A tiny steady state: a single previous point. -/
def sSmall : TrackerState :=
  { hasPrevFrame := true, prev_points := [⟨5, 5⟩], track_ids := [3], next_track_id := 7 }

/-- A steady state whose Track Table has been drained. -/
def sEmptySteady : TrackerState :=
  { hasPrevFrame := true, prev_points := [], track_ids := [], next_track_id := 5 }

/-! ## Claim theorems -/

/-- C8: On the first processed image (uninitialized state), the engine runs
feature extraction with the default maximum feature count 1000, every
resulting feature's pixel position becomes an initial track position with a
freshly allocated identity, `num_tracked` equals the number of detections,
and the reported quality is exactly 1.0. -/
theorem claim_C8 (env : Env) (s : TrackerState) (h : s.hasPrevFrame = false) :
    (track_features env s).1.curr_points = env.detect 1000 ∧
    (track_features env s).1.num_tracked = (env.detect 1000).length ∧
    (track_features env s).1.tracking_quality = 1 ∧
    (track_features env s).1.track_ids =
      allocIds s.next_track_id (env.detect 1000).length ∧
    (track_features env s).1.track_ids.Nodup ∧
    (∀ id ∈ (track_features env s).1.track_ids, s.next_track_id ≤ id) ∧
    (track_features env s).2.prev_points = env.detect 1000 ∧
    (track_features env s).2.track_ids = (track_features env s).1.track_ids := by
  rw [track_features_bootstrap env s h]
  exact ⟨rfl, rfl, rfl, rfl, nodup_allocIds _ _, fun id hid => (mem_allocIds.mp hid).1,
    rfl, rfl⟩

theorem claim_C8_witness :
    (track_features envC initialState).1.tracking_quality = 1 ∧
    (track_features envC initialState).1.num_tracked = (envC.detect 1000).length :=
  ⟨(claim_C8 envC initialState rfl).2.2.1, (claim_C8 envC initialState rfl).2.1⟩

/-- C9: A steady step that finds the previous Track Table empty terminates
and returns a valid bootstrap result rather than an error: the recursive
re-initialization path reaches the bootstrap branch after exactly one
recursive call, including when extraction yields zero features. -/
theorem claim_C9 (env : Env) (s : TrackerState)
    (h1 : s.hasPrevFrame = true) (h2 : s.prev_points = []) :
    track_features env s = track_features env { s with hasPrevFrame := false } ∧
    track_features env s = bootstrapStep env { s with hasPrevFrame := false } ∧
    (track_features env s).1.num_tracked = (env.detect 1000).length ∧
    (track_features env s).1.tracking_quality = 1 := by
  have he := track_features_empty env s h1 h2
  have hb := track_features_bootstrap env { s with hasPrevFrame := false } rfl
  refine ⟨he.trans hb.symm, he, ?_, ?_⟩
  · rw [he]
    simp [bootstrapStep]
  · rw [he]
    simp [bootstrapStep]

theorem claim_C9_witness :
    track_features env0 sEmptySteady =
      bootstrapStep env0 { sEmptySteady with hasPrevFrame := false } ∧
    (track_features env0 sEmptySteady).1.num_tracked = 0 := by
  obtain ⟨-, h2, h3, -⟩ := claim_C9 env0 sEmptySteady rfl rfl
  refine ⟨h2, ?_⟩
  rw [h3]
  rfl

/-- C5: On every steady step whose tracks are kept, the reported quality is
exactly |final set| / P where P is the previous Track Table size and the
final set is the post-guard survivor set; on the very first step the quality
is exactly 1.0. -/
theorem claim_C5 (env : Env) (s : TrackerState) :
    (s.hasPrevFrame = false → (track_features env s).1.tracking_quality = 1) ∧
    (s.hasPrevFrame = true → s.prev_points ≠ [] →
      ¬(stepQuality env s < 1 / 2 ∨ (filteredSurvivors env s).2.1.length < 100) →
      (track_features env s).1.tracking_quality =
        ((filteredSurvivors env s).2.1.length : ℚ) / (s.prev_points.length : ℚ)) := by
  constructor
  · intro h
    rw [track_features_bootstrap env s h]
    rfl
  · intro h1 h2 hc
    rw [track_features_continue env s h1 h2 hc]
    by_cases hlt : (filteredSurvivors env s).2.1.length < 500
    · rw [continueStep_aug env s hlt]
      show stepQuality env s = _
      rw [stepQuality, if_neg h2]
    · rw [continueStep_noaug env s hlt]
      show stepQuality env s = _
      rw [stepQuality, if_neg h2]

/-- The policy keeps the tracks of `sB` under `envB`: all 100 points survive,
so the quality is 1 and the survivor count meets the floor. -/
theorem sB_kept :
    ¬(stepQuality envB sB < 1 / 2 ∨ (filteredSurvivors envB sB).2.1.length < 100) := by
  have h : (filteredSurvivors envB sB).2.1.length = 100 := by decide
  have hne : ¬ sB.prev_points = [] := by decide
  have hlen : sB.prev_points.length = 100 := by decide
  have hq : stepQuality envB sB = 1 := by
    unfold stepQuality
    rw [if_neg hne, h, hlen]
    norm_num
  rw [hq, h]
  norm_num

theorem claim_C5_witness :
    (track_features envB sB).1.tracking_quality =
      ((filteredSurvivors envB sB).2.1.length : ℚ) / (sB.prev_points.length : ℚ) :=
  (claim_C5 envB sB).2 rfl (by decide) sB_kept

/-- C3: The robust two-view outlier filter is invoked only when the survivor
count S is at least 8 (for smaller S the result does not depend on the
filter oracle at all), and its filtered subset replaces the survivors only
when its size exceeds half of S; otherwise the pre-filter survivor set is
kept unchanged. -/
theorem claim_C3 (env : Env) (s : TrackerState) :
    ((flowSurvivors env s).2.1.length < 8 →
      filteredSurvivors env s = flowSurvivors env s ∧
      ∀ f2 : List Point → List Point → List Bool,
        filteredSurvivors { env with fund := f2 } s = filteredSurvivors env s) ∧
    (8 ≤ (flowSurvivors env s).2.1.length →
      (¬((flowSurvivors env s).2.1.length <
          2 * (applyMask (env.fund (flowSurvivors env s).1 (flowSurvivors env s).2.1)
            (flowSurvivors env s).1 (flowSurvivors env s).2.1
            (flowSurvivors env s).2.2).2.1.length) →
        filteredSurvivors env s = flowSurvivors env s) ∧
      ((flowSurvivors env s).2.1.length <
          2 * (applyMask (env.fund (flowSurvivors env s).1 (flowSurvivors env s).2.1)
            (flowSurvivors env s).1 (flowSurvivors env s).2.1
            (flowSurvivors env s).2.2).2.1.length →
        filteredSurvivors env s =
          applyMask (env.fund (flowSurvivors env s).1 (flowSurvivors env s).2.1)
            (flowSurvivors env s).1 (flowSurvivors env s).2.1
            (flowSurvivors env s).2.2)) := by
  constructor
  · intro h8
    have hflow : ∀ f2 : List Point → List Point → List Bool,
        flowSurvivors { env with fund := f2 } s = flowSurvivors env s := fun f2 => rfl
    refine ⟨filteredSurvivors_low env s h8, fun f2 => ?_⟩
    rw [filteredSurvivors_low { env with fund := f2 } s (by rw [hflow]; exact h8),
      filteredSurvivors_low env s h8, hflow]
  · intro h8
    exact ⟨fun hg => filteredSurvivors_guard_reject env s h8 hg,
      fun hg => filteredSurvivors_guard_accept env s h8 hg⟩

theorem claim_C3_witness :
    filteredSurvivors envC sSmall = flowSurvivors envC sSmall :=
  ((claim_C3 envC sSmall).1 (by decide)).1

/-- C4: On a steady step, index `i` of the previous point set is kept in the
survivor set if and only if the flow output flags it valid, its residual
error is below the fixed ceiling 30.0, and its candidate position lies
inside the current image bounds. -/
theorem claim_C4 (env : Env) (s : TrackerState) (hok : EnvOk env)
    (hal : s.prev_points.length = s.track_ids.length) :
    flowSurvivors env s =
      (((List.range s.prev_points.length).filter fun i =>
          keepPoint env.cols env.rows ((env.flowStatus s.prev_points).getD i false)
            ((env.flowErr s.prev_points).getD i 0)
            ((env.flowPts s.prev_points).getD i pOrigin)).map
          (fun i => s.prev_points.getD i pOrigin),
       ((List.range s.prev_points.length).filter fun i =>
          keepPoint env.cols env.rows ((env.flowStatus s.prev_points).getD i false)
            ((env.flowErr s.prev_points).getD i 0)
            ((env.flowPts s.prev_points).getD i pOrigin)).map
          (fun i => (env.flowPts s.prev_points).getD i pOrigin),
       ((List.range s.prev_points.length).filter fun i =>
          keepPoint env.cols env.rows ((env.flowStatus s.prev_points).getD i false)
            ((env.flowErr s.prev_points).getD i 0)
            ((env.flowPts s.prev_points).getD i pOrigin)).map
          (fun i => s.track_ids.getD i 0)) ∧
    ∀ i : Nat,
      (i ∈ (List.range s.prev_points.length).filter fun i =>
          keepPoint env.cols env.rows ((env.flowStatus s.prev_points).getD i false)
            ((env.flowErr s.prev_points).getD i 0)
            ((env.flowPts s.prev_points).getD i pOrigin)) ↔
      (i < s.prev_points.length ∧
       (env.flowStatus s.prev_points).getD i false = true ∧
       (env.flowErr s.prev_points).getD i 0 < 30 ∧
       0 ≤ ((env.flowPts s.prev_points).getD i pOrigin).x ∧
       ((env.flowPts s.prev_points).getD i pOrigin).x < env.cols ∧
       0 ≤ ((env.flowPts s.prev_points).getD i pOrigin).y ∧
       ((env.flowPts s.prev_points).getD i pOrigin).y < env.rows) := by
  have hst : (env.flowStatus s.prev_points).length = s.prev_points.length :=
    hok.flowStatus_len _
  constructor
  · have hb := buildSurvivors_eq s.prev_points (env.flowPts s.prev_points)
      (env.flowStatus s.prev_points) (env.flowErr s.prev_points) s.track_ids env.cols
      env.rows (by rw [hst, hal])
    rw [flowSurvivors, hb, hst]
  · intro i
    simp only [List.mem_filter, List.mem_range, keepPoint, Bool.and_eq_true,
      decide_eq_true_eq]
    tauto

theorem claim_C4_witness : (flowSurvivors envC sSmall).2.2 = [3] := by
  have h := (claim_C4 envC sSmall envC_ok (by decide)).1
  rw [h]
  decide

/-- C7: For every step and every branch, the returned result satisfies
len(curr_points) == len(track_ids) == num_tracked, and the updated Track
Table stays index-aligned. -/
theorem claim_C7 (env : Env) (s : TrackerState) (hok : EnvOk env)
    (hal : s.prev_points.length = s.track_ids.length) :
    (track_features env s).1.curr_points.length =
      (track_features env s).1.track_ids.length ∧
    (track_features env s).1.num_tracked = (track_features env s).1.curr_points.length ∧
    (track_features env s).2.prev_points.length =
      (track_features env s).2.track_ids.length := by
  by_cases h : s.hasPrevFrame = false
  · rw [track_features_bootstrap env s h]
    simp [bootstrapStep, length_allocIds]
  · have h1 : s.hasPrevFrame = true := by
      cases hb : s.hasPrevFrame
      · exact absurd hb h
      · rfl
    by_cases h2 : s.prev_points = []
    · rw [track_features_empty env s h1 h2]
      simp [bootstrapStep, length_allocIds]
    · by_cases hc : stepQuality env s < 1 / 2 ∨ (filteredSurvivors env s).2.1.length < 100
      · rw [track_features_reinit env s h1 h2 hc]
        simp [reinitStep, length_allocIds]
      · rw [track_features_continue env s h1 h2 hc]
        have hlen := (filteredSurvivors_len env s hok hal).2
        by_cases hlt : (filteredSurvivors env s).2.1.length < 500
        · rw [continueStep_aug env s hlt]
          refine ⟨?_, ?_, ?_⟩ <;>
            · simp only [List.length_append, length_allocIds, hlen, List.length_take,
                augCount]
              omega
        · rw [continueStep_noaug env s hlt]
          exact ⟨hlen.symm, rfl, hlen.symm⟩

theorem claim_C7_witness :
    (track_features envC initialState).1.curr_points.length =
      (track_features envC initialState).1.track_ids.length ∧
    (track_features envC initialState).1.num_tracked =
      (track_features envC initialState).1.curr_points.length :=
  ⟨(claim_C7 envC initialState envC_ok rfl).1, (claim_C7 envC initialState envC_ok rfl).2.1⟩

/-- C10: The inlier fields reflect only the filtered survivor set: on a
bootstrap step, prev_points and inliers are empty and num_inliers is 0 even
when num_tracked > 0; on a step with augmentation, inliers and num_inliers
keep the pre-augmentation survivor count, so num_inliers is strictly
smaller than num_tracked whenever anything was appended. -/
theorem claim_C10 (env : Env) (s : TrackerState) :
    (s.hasPrevFrame = false →
      (track_features env s).1.prev_points = [] ∧
      (track_features env s).1.inliers = [] ∧
      (track_features env s).1.num_inliers = 0 ∧
      (track_features env s).1.num_tracked = (env.detect 1000).length) ∧
    (s.hasPrevFrame = true → s.prev_points ≠ [] →
      ¬(stepQuality env s < 1 / 2 ∨ (filteredSurvivors env s).2.1.length < 100) →
      (filteredSurvivors env s).2.1.length < 500 →
      (track_features env s).1.num_inliers = (filteredSurvivors env s).2.1.length ∧
      (track_features env s).1.inliers.length = (filteredSurvivors env s).2.1.length ∧
      (track_features env s).1.num_tracked =
        (filteredSurvivors env s).2.1.length + augCount env s ∧
      (0 < augCount env s →
        (track_features env s).1.num_inliers < (track_features env s).1.num_tracked)) := by
  constructor
  · intro h
    rw [track_features_bootstrap env s h]
    exact ⟨rfl, rfl, rfl, rfl⟩
  · intro h1 h2 hc hlt
    rw [track_features_continue env s h1 h2 hc, continueStep_aug env s hlt]
    refine ⟨rfl, List.length_replicate _ _, rfl, ?_⟩
    intro hpos
    show (filteredSurvivors env s).2.1.length <
      (filteredSurvivors env s).2.1.length + augCount env s
    omega

/-- Every tracked position of `sB` lies far from the probe point, so the
exclusion mask admits it. -/
theorem sB_mask_pNew : maskAllows sB.prev_points pNew = true := by
  rw [maskAllows, List.all_eq_true]
  intro q hq
  simp only [sB, List.mem_map, List.mem_range] at hq
  obtain ⟨i, hi, rfl⟩ := hq
  simp only [pNew, decide_eq_true_eq]
  rw [Int.floor_natCast, Int.floor_one]
  have h1 : (0 : ℚ) ≤ (600 - (i : ℚ)) ^ 2 := sq_nonneg _
  push_cast
  nlinarith [h1]

theorem sB_f21 : (filteredSurvivors envB sB).2.1 = sB.prev_points := by decide

theorem sB_augKps : augKps envB sB = [pNew] := by
  unfold augKps augBudget
  rw [sB_f21]
  show (if 0 < 500 - (filteredSurvivors envB sB).2.1.length ∧
      maskAllows sB.prev_points pNew = true then [pNew] else []) = [pNew]
  rw [if_pos ⟨by decide, sB_mask_pNew⟩]

theorem sB_augCount_pos : 0 < augCount envB sB := by
  unfold augCount
  rw [sB_augKps]
  have hb : augBudget envB sB = 400 := by
    unfold augBudget
    decide
  rw [hb]
  decide

theorem claim_C10_witness :
    (track_features envC initialState).1.num_inliers = 0 ∧
    (track_features envB sB).1.num_inliers < (track_features envB sB).1.num_tracked := by
  refine ⟨((claim_C10 envC initialState).1 rfl).2.2.1, ?_⟩
  exact ((claim_C10 envB sB).2 rfl (by decide) sB_kept (by decide)).2.2.2 sB_augCount_pos

/-- C6: When tracks are kept and fewer than 500 survive, the augmentation
pass appends at most 500 - |final set| new points, every appended point
avoids the 20px exclusion discs around the tracked positions, the appended
identities are freshly allocated, the kept survivors (positions and
identities) are untouched as a prefix, and the reported quality is exactly
the pre-augmentation value. -/
theorem claim_C6 (env : Env) (s : TrackerState) (hok : EnvOk env)
    (hal : s.prev_points.length = s.track_ids.length)
    (h1 : s.hasPrevFrame = true) (h2 : s.prev_points ≠ [])
    (hc : ¬(stepQuality env s < 1 / 2 ∨ (filteredSurvivors env s).2.1.length < 100))
    (hlt : (filteredSurvivors env s).2.1.length < 500) :
    (track_features env s).1.curr_points.take (filteredSurvivors env s).2.1.length =
      (filteredSurvivors env s).2.1 ∧
    (track_features env s).1.track_ids.take (filteredSurvivors env s).2.1.length =
      (filteredSurvivors env s).2.2 ∧
    (track_features env s).1.curr_points.length =
      (filteredSurvivors env s).2.1.length + augCount env s ∧
    augCount env s ≤ 500 - (filteredSurvivors env s).2.1.length ∧
    (track_features env s).1.curr_points.drop (filteredSurvivors env s).2.1.length =
      (augKps env s).take (augCount env s) ∧
    (∀ p ∈ (track_features env s).1.curr_points.drop (filteredSurvivors env s).2.1.length,
      maskAllows (filteredSurvivors env s).2.1 p = true) ∧
    (track_features env s).1.track_ids.drop (filteredSurvivors env s).2.1.length =
      allocIds s.next_track_id (augCount env s) ∧
    (track_features env s).1.tracking_quality = stepQuality env s := by
  have hlen := (filteredSurvivors_len env s hok hal).2
  rw [track_features_continue env s h1 h2 hc, continueStep_aug env s hlt]
  have htake : ((augKps env s).take (augCount env s)).length = augCount env s := by
    rw [List.length_take]
    unfold augCount
    omega
  refine ⟨List.take_left _ _, ?_, ?_, ?_, ?_, ?_, ?_, rfl⟩
  · show ((filteredSurvivors env s).2.2 ++
      allocIds s.next_track_id (augCount env s)).take (filteredSurvivors env s).2.1.length =
      (filteredSurvivors env s).2.2
    rw [← hlen]
    exact List.take_left _ _
  · simp [List.length_append, htake]
  · unfold augCount augBudget
    exact Nat.min_le_right _ _
  · exact List.drop_left _ _
  · intro p hp
    rw [List.drop_left] at hp
    have hmem : p ∈ augKps env s := List.take_subset _ _ hp
    exact hok.detectMasked_mask _ _ p hmem
  · show ((filteredSurvivors env s).2.2 ++
      allocIds s.next_track_id (augCount env s)).drop (filteredSurvivors env s).2.1.length =
      allocIds s.next_track_id (augCount env s)
    rw [← hlen]
    exact List.drop_left _ _

theorem claim_C6_witness :
    (track_features envB sB).1.tracking_quality = stepQuality envB sB ∧
    augCount envB sB ≤ 500 - (filteredSurvivors envB sB).2.1.length := by
  have h := claim_C6 envB sB envB_ok (by decide) rfl (by decide) sB_kept (by decide)
  exact ⟨h.2.2.2.2.2.2.2, h.2.2.2.1⟩

/-- C2: On a steady step, if the computed quality is below 0.5 or the final
survivor set has fewer than 100 points, the engine discards the Track Table
entirely, runs a fresh bootstrap extraction on the current image with
brand-new identities for every resulting point, and reports quality exactly
1.0; otherwise the final survivor set is kept with its identities carried
over, index-aligned. -/
theorem claim_C2 (env : Env) (s : TrackerState) (hok : EnvOk env) (hwf : StateWF s)
    (h1 : s.hasPrevFrame = true) (h2 : s.prev_points ≠ []) :
    (stepQuality env s < 1 / 2 ∨ (filteredSurvivors env s).2.1.length < 100 →
      track_features env s = reinitStep env s ∧
      (track_features env s).1.curr_points = env.detect 1000 ∧
      (track_features env s).1.track_ids =
        allocIds s.next_track_id (env.detect 1000).length ∧
      (track_features env s).1.tracking_quality = 1 ∧
      (∀ id ∈ (track_features env s).1.track_ids, id ∉ s.track_ids) ∧
      (track_features env s).2.prev_points = env.detect 1000 ∧
      (track_features env s).2.track_ids = (track_features env s).1.track_ids) ∧
    (¬(stepQuality env s < 1 / 2 ∨ (filteredSurvivors env s).2.1.length < 100) →
      (∃ idx : List Nat, IsSelection idx s.prev_points.length ∧
        (filteredSurvivors env s).2.1 =
          idx.map (fun i => (env.flowPts s.prev_points).getD i pOrigin) ∧
        (filteredSurvivors env s).2.2 = idx.map (fun i => s.track_ids.getD i 0)) ∧
      (track_features env s).1.curr_points.take (filteredSurvivors env s).2.1.length =
        (filteredSurvivors env s).2.1 ∧
      (track_features env s).1.track_ids.take (filteredSurvivors env s).2.1.length =
        (filteredSurvivors env s).2.2 ∧
      (∀ id ∈ (filteredSurvivors env s).2.2, id ∈ s.track_ids)) := by
  obtain ⟨hal, hnd, hbnd⟩ := hwf
  constructor
  · intro hc
    have ht := track_features_reinit env s h1 h2 hc
    rw [ht]
    refine ⟨rfl, rfl, rfl, rfl, ?_, rfl, rfl⟩
    intro id hid hmem
    have hid' : id ∈ allocIds s.next_track_id (env.detect 1000).length := hid
    have hlo := (mem_allocIds.mp hid').1
    exact absurd (hbnd id hmem) (by omega)
  · intro hc
    obtain ⟨idx, hsel, hf1, hf2, hf3⟩ := filteredSurvivors_sel env s hok hal
    have hlen := (filteredSurvivors_len env s hok hal).2
    refine ⟨⟨idx, hsel, hf2, hf3⟩, ?_, ?_, ?_⟩
    · rw [track_features_continue env s h1 h2 hc]
      by_cases hlt : (filteredSurvivors env s).2.1.length < 500
      · rw [continueStep_aug env s hlt]
        exact List.take_left _ _
      · rw [continueStep_noaug env s hlt]
        exact List.take_length _
    · rw [track_features_continue env s h1 h2 hc]
      by_cases hlt : (filteredSurvivors env s).2.1.length < 500
      · rw [continueStep_aug env s hlt]
        show ((filteredSurvivors env s).2.2 ++
          allocIds s.next_track_id (augCount env s)).take
            (filteredSurvivors env s).2.1.length = (filteredSurvivors env s).2.2
        rw [← hlen]
        exact List.take_left _ _
      · rw [continueStep_noaug env s hlt]
        show (filteredSurvivors env s).2.2.take (filteredSurvivors env s).2.1.length =
          (filteredSurvivors env s).2.2
        rw [← hlen]
        exact List.take_length _
    · intro id hid
      rw [hf3] at hid
      exact isSelection_map_mem hsel 0 hal.symm hid

theorem claim_C2_witness :
    track_features envC sSmall = reinitStep envC sSmall ∧
    (track_features envC sSmall).1.tracking_quality = 1 := by
  have h := (claim_C2 envC sSmall envC_ok (by decide) rfl (by decide)).1 (Or.inr (by decide))
  exact ⟨h.1, h.2.2.2.1⟩

/-- C1 counterexample: the very first step issues identity 0; after a
`reset()` the next step issues identity 0 again, so an identity issued after
the reset equals an identity issued before it, contradicting the claim that
identities are never reused across a `reset()`. -/
theorem claim_C1_counterexample :
    (track_features envC initialState).1.track_ids = [0] ∧
    (track_features envC (reset (track_features envC initialState).2)).1.track_ids =
      [0] := by
  have hr1 := track_features_bootstrap envC initialState rfl
  have hr2 := track_features_bootstrap envC (reset (track_features envC initialState).2) rfl
  constructor
  · rw [hr1]
    decide
  · rw [hr2]
    decide

/-- C1 amended: while no `reset()` intervenes, identities are issued exactly
once and never reused: every step keeps the live identity list
duplicate-free and below the counter, never decreases the counter, and any
identity below the pre-step counter that survives the step was already live
before it; the returned identities equal the stored ones.  (After a
`reset()` the counter restarts at 0, so identities are reused across
resets.) -/
theorem claim_C1_amended (env : Env) (s : TrackerState) (hok : EnvOk env)
    (hwf : StateWF s) :
    StateWF (track_features env s).2 ∧
    s.next_track_id ≤ (track_features env s).2.next_track_id ∧
    (∀ id ∈ (track_features env s).2.track_ids,
      id < s.next_track_id → id ∈ s.track_ids) ∧
    (track_features env s).1.track_ids = (track_features env s).2.track_ids := by
  obtain ⟨hal, hnd, hbnd⟩ := hwf
  by_cases h : s.hasPrevFrame = false
  · rw [track_features_bootstrap env s h]
    refine ⟨⟨(length_allocIds _ _).symm, nodup_allocIds _ _, ?_⟩, ?_, ?_, rfl⟩
    · intro id hid
      exact (mem_allocIds.mp hid).2
    · show s.next_track_id ≤ s.next_track_id + ((env.detect 1000).length : Int)
      omega
    · intro id hid hltc
      have hx : s.next_track_id ≤ id := (mem_allocIds.mp hid).1
      exact absurd hltc (not_lt.mpr hx)
  · have h1 : s.hasPrevFrame = true := by
      cases hb : s.hasPrevFrame
      · exact absurd hb h
      · rfl
    by_cases h2 : s.prev_points = []
    · rw [track_features_empty env s h1 h2]
      refine ⟨⟨(length_allocIds _ _).symm, nodup_allocIds _ _, ?_⟩, ?_, ?_, rfl⟩
      · intro id hid
        exact (mem_allocIds.mp hid).2
      · show s.next_track_id ≤ s.next_track_id + ((env.detect 1000).length : Int)
        omega
      · intro id hid hltc
        have hx : s.next_track_id ≤ id := (mem_allocIds.mp hid).1
        exact absurd hltc (not_lt.mpr hx)
    · by_cases hc : stepQuality env s < 1 / 2 ∨ (filteredSurvivors env s).2.1.length < 100
      · rw [track_features_reinit env s h1 h2 hc]
        refine ⟨⟨(length_allocIds _ _).symm, nodup_allocIds _ _, ?_⟩, ?_, ?_, rfl⟩
        · intro id hid
          exact (mem_allocIds.mp hid).2
        · show s.next_track_id ≤ s.next_track_id + ((env.detect 1000).length : Int)
          omega
        · intro id hid hltc
          have hx : s.next_track_id ≤ id := (mem_allocIds.mp hid).1
          exact absurd hltc (not_lt.mpr hx)
      · rw [track_features_continue env s h1 h2 hc]
        obtain ⟨idx, hsel, hf1, hf2, hf3⟩ := filteredSurvivors_sel env s hok hal
        have hlen := (filteredSurvivors_len env s hok hal).2
        have hidsnd : (filteredSurvivors env s).2.2.Nodup := by
          rw [hf3]
          exact isSelection_map_nodup hsel 0 hnd hal.symm
        have hidsmem : ∀ id ∈ (filteredSurvivors env s).2.2, id ∈ s.track_ids := by
          intro id hid
          rw [hf3] at hid
          exact isSelection_map_mem hsel 0 hal.symm hid
        have hidsbnd : ∀ id ∈ (filteredSurvivors env s).2.2, id < s.next_track_id :=
          fun id hid => hbnd id (hidsmem id hid)
        by_cases hlt : (filteredSurvivors env s).2.1.length < 500
        · rw [continueStep_aug env s hlt]
          have htake : ((augKps env s).take (augCount env s)).length = augCount env s := by
            rw [List.length_take]
            unfold augCount
            omega
          refine ⟨⟨?_, ?_, ?_⟩, ?_, ?_, rfl⟩
          · simp [List.length_append, htake, hlen, length_allocIds]
          · refine List.Nodup.append hidsnd (nodup_allocIds _ _) ?_
            intro a ha hb
            have hx : a < s.next_track_id := hidsbnd a ha
            have hy : s.next_track_id ≤ a := (mem_allocIds.mp hb).1
            exact absurd hx (not_lt.mpr hy)
          · intro id hid
            rcases List.mem_append.mp hid with hA | hB
            · have hx : id < s.next_track_id := hidsbnd id hA
              show id < s.next_track_id + ((augCount env s : Nat) : Int)
              omega
            · exact (mem_allocIds.mp hB).2
          · show s.next_track_id ≤ s.next_track_id + ((augCount env s : Nat) : Int)
            omega
          · intro id hid hltc
            rcases List.mem_append.mp hid with hA | hB
            · exact hidsmem id hA
            · have hx : s.next_track_id ≤ id := (mem_allocIds.mp hB).1
              exact absurd hltc (not_lt.mpr hx)
        · rw [continueStep_noaug env s hlt]
          refine ⟨⟨hlen.symm, hidsnd, hidsbnd⟩, le_refl _, ?_, rfl⟩
          intro id hid _
          exact hidsmem id hid

theorem claim_C1_amended_witness :
    StateWF (track_features envC sSmall).2 ∧
    sSmall.next_track_id ≤ (track_features envC sSmall).2.next_track_id :=
  ⟨(claim_C1_amended envC sSmall envC_ok (by decide)).1,
   (claim_C1_amended envC sSmall envC_ok (by decide)).2.1⟩

end ARSlam
